import Mathlib

/-!
# CypherGoat CLI, package `api` (src/api/api.go)

A shallow embedding of the five functions of the package: `SendRequest`,
`FetchEstimateFromAPI`, `CreateTradeFromAPI`, `TrackTxFromAPI` and
`GetTransactionFromAPI`.

Modelling decisions.

* The network is an input: a `Transport` maps the request URL to either an error
  (what `http.NewRequest`, `client.Do` or `ioutil.ReadAll` returned) or the bytes
  of the response body.  The `Authorization` header, and with it the package
  variable `API_KEY` that `init` loads, only reaches the server, so it is part
  of the `Transport`.
* A response body is a `Body`: either text that the scanner of `encoding/json`
  rejects (`Body.malformed`) or the JSON document it spells (`Body.wellFormed`).
  The functions below re-decode the same `Body` exactly where the Go code calls
  `json.Unmarshal` on the same bytes again.
* `json.Unmarshal` is embedded per target type, following `encoding/json`: keys
  are matched to struct fields exactly or under case folding, unknown keys are
  skipped without looking at their value, `null` leaves a non-pointer field
  unchanged, a later duplicate key is decoded on top of the earlier one, and a
  value of the wrong JSON type or a number that does not fit a `float64` is an
  error.  Every caller in the package discards the decoded value when
  `Unmarshal` reports an error, so the decoders stop at the first error.
* `float64` is `Float64`: a finite value is identified with the rational number
  it denotes (the sign of zero is not tracked).
* Functions of the Go library whose result depends on tables or on the Go
  release (float parsing and printing, case mapping, timestamp parsing,
  `sort.Slice`) are the fields of `Lib`; `refLib` is an instance that can be run.
* Printing to standard output (`fmt.Println`, `fmt.Printf`) is not modelled.
-/

namespace CypherGoat

/-! ## Data model -/

/-- A Go `float64`.  A finite value is represented by the rational it denotes. -/
inductive Float64
  | finite (v : ℚ)
  | posInf
  | negInf
  | nan
deriving DecidableEq

/-- Go's `a > b` on `float64`: false whenever an operand is NaN. -/
def Float64.gt : Float64 → Float64 → Bool
  | .finite a, .finite b => decide (b < a)
  | .finite _, .negInf => true
  | .posInf, .finite _ => true
  | .posInf, .negInf => true
  | _, _ => false

/-- Go's `a >= b` on `float64`: false whenever an operand is NaN. -/
def Float64.ge : Float64 → Float64 → Bool
  | .finite a, .finite b => decide (b ≤ a)
  | .finite _, .negInf => true
  | .posInf, .finite _ => true
  | .posInf, .negInf => true
  | .posInf, .posInf => true
  | .negInf, .negInf => true
  | _, _ => false

/-- A `time.Time`, kept as the civil date and time it was written with and the
zone offset in seconds. -/
structure Time where
  year : Nat
  month : Nat
  day : Nat
  hour : Nat
  minute : Nat
  second : Nat
  nsec : Nat
  offset : Int
deriving DecidableEq

/-- The zero `time.Time`: January 1, year 1, 00:00:00 UTC. -/
def Time.zero : Time := ⟨1, 1, 1, 0, 0, 0, 0, 0⟩

/-- The struct `Estimate` (api.go lines 23-34). -/
structure Estimate where
  ExchangeName : String
  ReceiveAmount : Float64
  MinAmount : Float64
  Network1 : String
  Network2 : String
  Coin1 : String
  Coin2 : String
  SendAmount : Float64
  Address : String
  ImageURL : String
deriving DecidableEq

/-- The zero value `Estimate{}`. -/
def Estimate.zero : Estimate :=
  ⟨"", .finite 0, .finite 0, "", "", "", "", .finite 0, "", ""⟩

/-- The struct `Transaction` (api.go lines 39-56). -/
structure Transaction where
  Coin1 : String
  Coin2 : String
  Network1 : String
  Network2 : String
  Address : String
  EstimateAmount : Float64
  Provider : String
  Id : String
  SendAmount : Float64
  Track : String
  Status : String
  KYC : String
  Token : String
  Done : Bool
  CGID : String
  CreatedAt : Time
deriving DecidableEq

/-- The zero value `Transaction{}`. -/
def Transaction.zero : Transaction :=
  ⟨"", "", "", "", "", .finite 0, "", "", .finite 0, "", "", "", "", false, "", Time.zero⟩

/-- The values of Go's `error` that the package can return. -/
inductive Error
  /-- an error of `http.NewRequest`, `client.Do` or `ioutil.ReadAll` -/
  | transport (msg : String)
  /-- the `*json.SyntaxError` of a body that is not well-formed JSON -/
  | malformedJSON
  /-- an error of `json.Unmarshal` on well-formed JSON: a value that does not fit
  the target (`*json.UnmarshalTypeError`) or the error of `Time.UnmarshalJSON` -/
  | unmarshal
  /-- an error made by `fmt.Errorf`; `msg` is its message -/
  | errorf (msg : String)
deriving DecidableEq

/-- A JSON document.  A number is kept as the exact value of its literal; an
object keeps its members in the order of the text, duplicate keys included. -/
inductive JSON
  | null
  | bool (b : Bool)
  | num (q : ℚ)
  | str (s : String)
  | arr (xs : List JSON)
  | obj (kvs : List (String × JSON))

/-- The bytes of a response body, as `encoding/json` sees them. -/
inductive Body
  /-- text that is not well-formed JSON -/
  | malformed (raw : String)
  /-- the text of the JSON document `v` -/
  | wellFormed (v : JSON)

/-- A value of type `interface{}` as `json.Unmarshal` produces it. -/
inductive Any
  | nil
  | bool (b : Bool)
  | float64 (f : Float64)
  | string (s : String)
  | slice (xs : List Any)
  | map (m : List (String × Any))

/-- A Go map with string keys: the entries, the latest assignment first. -/
abbrev GoMap (α : Type) := List (String × α)

/-- The assignment `m[k] = v`. -/
def GoMap.set {α : Type} (m : GoMap α) (k : String) (v : α) : GoMap α :=
  (k, v) :: m.filter (fun e => !(e.1 == k))

/-- The lookup `v, ok := m[k]`. -/
def GoMap.get? {α : Type} (m : GoMap α) (k : String) : Option α :=
  (m.find? (fun e => e.1 == k)).map (fun e => e.2)

/-- The index expression `m[k]` on a `map[string]interface{}`: nil when absent. -/
def mapIndex (m : GoMap Any) (k : String) : Any :=
  (m.get? k).getD Any.nil

/-- The type assertion `x.(string)`. -/
def Any.asString : Any → Option String
  | .string s => some s
  | _ => none

/-- An operand of `fmt.Sprintf`. -/
inductive Arg
  | str (s : String)
  | float (f : Float64)

/-- The functions of the Go library that the package calls and that are kept
as parameters of the embedding. -/
structure Lib where
  /-- `strconv.ParseFloat(s, 64)` as a function of the value of the literal `s`:
  the value of the nearest `float64`, or `none` when it is out of range -/
  parseFloat : ℚ → Option ℚ
  /-- the case folding `encoding/json` applies to an object key and to a field
  name before it compares them -/
  foldName : String → String
  /-- the RFC 3339 parser behind `Time.UnmarshalJSON`, applied to the content of
  a JSON string -/
  parseTime : String → Option Time
  /-- `strings.ToLower` -/
  toLower : String → String
  /-- what `fmt` prints for an operand under a verb, for every case other than
  a string under `%s` -/
  formatOperand : Char → Arg → String
  /-- `sort.Slice` on a slice holding `xs`, with a `less` that compares two
  elements -/
  sortSlice : {α : Type} → (α → α → Bool) → List α → List α

/-! ## `fmt.Sprintf` and `fmt.Errorf`

Only what the format strings of the package need: verbs without flags, `%%`,
and the reports for a missing operand and for operands left over. -/

/-- One operand under the verb `verb`. -/
def fmtArg (L : Lib) (verb : Char) : Arg → String
  | .str s => if verb = 's' then s else L.formatOperand verb (.str s)
  | .float f => L.formatOperand verb (.float f)

/-- One left-over operand inside the `%!(EXTRA ...)` report: type, `=`, and the
operand under `%v`. -/
def extraOperand (L : Lib) : Arg → String
  | .str s => "string=" ++ s
  | .float f => "float64=" ++ L.formatOperand 'v' (.float f)

/-- The scan of the format string: the text produced and the operands that no
verb consumed. -/
def doPrintf (L : Lib) : List Char → List Arg → String × List Arg
  | [], args => ("", args)
  | c :: rest, args =>
    if c = '%' then
      match rest, args with
      | [], args => ("%!(NOVERB)", args)
      | v :: rest2, [] =>
        if v = '%' then
          ("%" ++ (doPrintf L rest2 []).1, (doPrintf L rest2 []).2)
        else
          ("%!" ++ String.singleton v ++ "(MISSING)" ++ (doPrintf L rest2 []).1,
            (doPrintf L rest2 []).2)
      | v :: rest2, a :: args2 =>
        if v = '%' then
          ("%" ++ (doPrintf L rest2 (a :: args2)).1, (doPrintf L rest2 (a :: args2)).2)
        else
          (fmtArg L v a ++ (doPrintf L rest2 args2).1, (doPrintf L rest2 args2).2)
    else
      (String.singleton c ++ (doPrintf L rest args).1, (doPrintf L rest args).2)

/-- The function `fmt.Sprintf`. -/
def Sprintf (L : Lib) (format : String) (args : List Arg) : String :=
  match doPrintf L format.data args with
  | (out, []) => out
  | (out, a :: extra) =>
    out ++ "%!(EXTRA " ++ ", ".intercalate ((a :: extra).map (extraOperand L)) ++ ")"

/-- The function `fmt.Errorf`: an error whose message is the formatted text. -/
def Errorf (L : Lib) (format : String) (args : List Arg) : Error :=
  .errorf (Sprintf L format args)

/-! ## `json.Unmarshal` -/

/-- The struct field that an object key selects: the field whose JSON name is
the key, else the first field whose folded name is the folded key. -/
def findField {φ : Type} (L : Lib) (fields : List (String × φ)) (key : String) : Option φ :=
  match fields.find? (fun f => f.1 == key) with
  | some f => some f.2
  | none => (fields.find? (fun f => L.foldName f.1 == L.foldName key)).map (fun f => f.2)

/-- A JSON value stored into a field of type `string`. -/
def storeString (cur : String) : JSON → Except Error String
  | .null => .ok cur
  | .str s => .ok s
  | _ => .error .unmarshal

/-- A JSON value stored into a field of type `float64`. -/
def storeFloat64 (L : Lib) (cur : Float64) : JSON → Except Error Float64
  | .null => .ok cur
  | .num q =>
    match L.parseFloat q with
    | some r => .ok (.finite r)
    | none => .error .unmarshal
  | _ => .error .unmarshal

/-- A JSON value stored into a field of type `bool`. -/
def storeBool (cur : Bool) : JSON → Except Error Bool
  | .null => .ok cur
  | .bool b => .ok b
  | _ => .error .unmarshal

/-- A JSON value handed to `Time.UnmarshalJSON`. -/
def storeTime (L : Lib) (cur : Time) : JSON → Except Error Time
  | .null => .ok cur
  | .str s =>
    match L.parseTime s with
    | some t => .ok t
    | none => .error .unmarshal
  | _ => .error .unmarshal

/-- The fields of `Estimate`. -/
inductive EstimateField
  | ExchangeName | ReceiveAmount | MinAmount | Network1 | Network2
  | Coin1 | Coin2 | SendAmount | Address | ImageURL

/-- The JSON names of the fields of `Estimate`, in the order of the struct. -/
def estimateFields : List (String × EstimateField) :=
  [("Exchange", .ExchangeName), ("Amount", .ReceiveAmount), ("MinAmount", .MinAmount),
   ("Network1", .Network1), ("Network2", .Network2), ("Coin1", .Coin1), ("Coin2", .Coin2),
   ("SendAmount", .SendAmount), ("Address", .Address), ("ImageURL", .ImageURL)]

/-- A JSON value decoded into one field of an `Estimate`. -/
def setEstimateField (L : Lib) (e : Estimate) (f : EstimateField) (v : JSON) :
    Except Error Estimate :=
  match f with
  | .ExchangeName => (storeString e.ExchangeName v).map (fun x => { e with ExchangeName := x })
  | .ReceiveAmount =>
    (storeFloat64 L e.ReceiveAmount v).map (fun x => { e with ReceiveAmount := x })
  | .MinAmount => (storeFloat64 L e.MinAmount v).map (fun x => { e with MinAmount := x })
  | .Network1 => (storeString e.Network1 v).map (fun x => { e with Network1 := x })
  | .Network2 => (storeString e.Network2 v).map (fun x => { e with Network2 := x })
  | .Coin1 => (storeString e.Coin1 v).map (fun x => { e with Coin1 := x })
  | .Coin2 => (storeString e.Coin2 v).map (fun x => { e with Coin2 := x })
  | .SendAmount => (storeFloat64 L e.SendAmount v).map (fun x => { e with SendAmount := x })
  | .Address => (storeString e.Address v).map (fun x => { e with Address := x })
  | .ImageURL => (storeString e.ImageURL v).map (fun x => { e with ImageURL := x })

/-- The members of a JSON object decoded one after the other into an `Estimate`. -/
def decodeEstimateMembers (L : Lib) : Estimate → List (String × JSON) → Except Error Estimate
  | e, [] => .ok e
  | e, (k, v) :: kvs =>
    match findField L estimateFields k with
    | none => decodeEstimateMembers L e kvs
    | some f =>
      match setEstimateField L e f v with
      | .error err => .error err
      | .ok e2 => decodeEstimateMembers L e2 kvs

/-- A JSON value decoded into an `Estimate` that holds `cur`. -/
def decodeEstimate (L : Lib) (cur : Estimate) : JSON → Except Error Estimate
  | .null => .ok cur
  | .obj kvs => decodeEstimateMembers L cur kvs
  | _ => .error .unmarshal

/-- A Go slice as `json.Unmarshal` sees it: its elements, and the elements of
its backing array past its length, which a later array reuses. -/
structure Slice (α : Type) where
  elems : List α
  spare : List α

/-- The nil slice. -/
def Slice.nil {α : Type} : Slice α := ⟨[], []⟩

/-- The elements of a JSON array decoded in place over `olds`, the elements the
backing array already holds; past them the backing array is zeroed. -/
def decodeEstimateElems (L : Lib) : List Estimate → List JSON → Except Error (List Estimate)
  | _, [] => .ok []
  | olds, x :: xs =>
    match decodeEstimate L (olds.headD Estimate.zero) x with
    | .error err => .error err
    | .ok e =>
      match decodeEstimateElems L olds.tail xs with
      | .error err => .error err
      | .ok es => .ok (e :: es)

/-- A JSON value decoded into a field of type `[]Estimate` that holds `cur`. -/
def decodeRates (L : Lib) (cur : Slice Estimate) : JSON → Except Error (Slice Estimate)
  | .null => .ok Slice.nil
  | .arr [] => .ok Slice.nil
  | .arr (x :: xs) =>
    match decodeEstimateElems L (cur.elems ++ cur.spare) (x :: xs) with
    | .error err => .error err
    | .ok es => .ok ⟨es, (cur.elems ++ cur.spare).drop (x :: xs).length⟩
  | _ => .error .unmarshal

/-- The members of a JSON object decoded into the local struct `ApiResponse` of
`FetchEstimateFromAPI`, whose only field is `Rates`, named `rates`. -/
def decodeApiResponseMembers (L : Lib) :
    Slice Estimate → List (String × JSON) → Except Error (Slice Estimate)
  | r, [] => .ok r
  | r, (k, v) :: kvs =>
    match findField L [("rates", ())] k with
    | none => decodeApiResponseMembers L r kvs
    | some _ =>
      match decodeRates L r v with
      | .error err => .error err
      | .ok r2 => decodeApiResponseMembers L r2 kvs

/-- The call `json.Unmarshal(data, &result)` with `result` a zero `ApiResponse`;
the value is `result.Rates`. -/
def unmarshalApiResponse (L : Lib) : Body → Except Error (List Estimate)
  | .malformed _ => .error .malformedJSON
  | .wellFormed .null => .ok []
  | .wellFormed (.obj kvs) => (decodeApiResponseMembers L Slice.nil kvs).map (fun r => r.elems)
  | .wellFormed _ => .error .unmarshal

/-- The fields of `Transaction`. -/
inductive TransactionField
  | Coin1 | Coin2 | Network1 | Network2 | Address | EstimateAmount | Provider | Id
  | SendAmount | Track | Status | KYC | Token | Done | CGID | CreatedAt

/-- The JSON names of the fields of `Transaction`, in the order of the struct. -/
def transactionFields : List (String × TransactionField) :=
  [("Coin1", .Coin1), ("Coin2", .Coin2), ("Network1", .Network1), ("Network2", .Network2),
   ("Address", .Address), ("EstimateAmount", .EstimateAmount), ("Provider", .Provider),
   ("Id", .Id), ("SendAmount", .SendAmount), ("Track", .Track), ("Status", .Status),
   ("KYC", .KYC), ("Token", .Token), ("Done", .Done), ("CGID", .CGID),
   ("CreatedAt", .CreatedAt)]

/-- A JSON value decoded into one field of a `Transaction`. -/
def setTransactionField (L : Lib) (t : Transaction) (f : TransactionField) (v : JSON) :
    Except Error Transaction :=
  match f with
  | .Coin1 => (storeString t.Coin1 v).map (fun x => { t with Coin1 := x })
  | .Coin2 => (storeString t.Coin2 v).map (fun x => { t with Coin2 := x })
  | .Network1 => (storeString t.Network1 v).map (fun x => { t with Network1 := x })
  | .Network2 => (storeString t.Network2 v).map (fun x => { t with Network2 := x })
  | .Address => (storeString t.Address v).map (fun x => { t with Address := x })
  | .EstimateAmount =>
    (storeFloat64 L t.EstimateAmount v).map (fun x => { t with EstimateAmount := x })
  | .Provider => (storeString t.Provider v).map (fun x => { t with Provider := x })
  | .Id => (storeString t.Id v).map (fun x => { t with Id := x })
  | .SendAmount => (storeFloat64 L t.SendAmount v).map (fun x => { t with SendAmount := x })
  | .Track => (storeString t.Track v).map (fun x => { t with Track := x })
  | .Status => (storeString t.Status v).map (fun x => { t with Status := x })
  | .KYC => (storeString t.KYC v).map (fun x => { t with KYC := x })
  | .Token => (storeString t.Token v).map (fun x => { t with Token := x })
  | .Done => (storeBool t.Done v).map (fun x => { t with Done := x })
  | .CGID => (storeString t.CGID v).map (fun x => { t with CGID := x })
  | .CreatedAt => (storeTime L t.CreatedAt v).map (fun x => { t with CreatedAt := x })

/-- The members of a JSON object decoded one after the other into a
`Transaction`. -/
def decodeTransactionMembers (L : Lib) :
    Transaction → List (String × JSON) → Except Error Transaction
  | t, [] => .ok t
  | t, (k, v) :: kvs =>
    match findField L transactionFields k with
    | none => decodeTransactionMembers L t kvs
    | some f =>
      match setTransactionField L t f v with
      | .error err => .error err
      | .ok t2 => decodeTransactionMembers L t2 kvs

/-- A JSON value decoded into a `Transaction` that holds `cur`. -/
def decodeTransaction (L : Lib) (cur : Transaction) : JSON → Except Error Transaction
  | .null => .ok cur
  | .obj kvs => decodeTransactionMembers L cur kvs
  | _ => .error .unmarshal

/-- The members of a JSON object decoded into a `TransactionResponse`, whose
only field is `Transaction`, named `transaction`. -/
def decodeTransactionResponseMembers (L : Lib) :
    Transaction → List (String × JSON) → Except Error Transaction
  | t, [] => .ok t
  | t, (k, v) :: kvs =>
    match findField L [("transaction", ())] k with
    | none => decodeTransactionResponseMembers L t kvs
    | some _ =>
      match decodeTransaction L t v with
      | .error err => .error err
      | .ok t2 => decodeTransactionResponseMembers L t2 kvs

/-- The call `json.Unmarshal(data, &result)` with `result` a zero
`TransactionResponse`; the value is `result.Transaction`. -/
def unmarshalTransactionResponse (L : Lib) : Body → Except Error Transaction
  | .malformed _ => .error .malformedJSON
  | .wellFormed .null => .ok Transaction.zero
  | .wellFormed (.obj kvs) => decodeTransactionResponseMembers L Transaction.zero kvs
  | .wellFormed _ => .error .unmarshal

/-- The members of a JSON object decoded into a `map[string]Transaction`: every
value is decoded into a zeroed element, which is then assigned under its key. -/
def decodeTransactionMapMembers (L : Lib) :
    GoMap Transaction → List (String × JSON) → Except Error (GoMap Transaction)
  | m, [] => .ok m
  | m, (k, v) :: kvs =>
    match decodeTransaction L Transaction.zero v with
    | .error err => .error err
    | .ok t => decodeTransactionMapMembers L (m.set k t) kvs

/-- The call `json.Unmarshal(data, &result)` with `result` a nil
`map[string]Transaction`. -/
def unmarshalTransactionMap (L : Lib) : Body → Except Error (GoMap Transaction)
  | .malformed _ => .error .malformedJSON
  | .wellFormed .null => .ok []
  | .wellFormed (.obj kvs) => decodeTransactionMapMembers L [] kvs
  | .wellFormed _ => .error .unmarshal

mutual
/-- A JSON value decoded into an `interface{}`. -/
def decodeAny (L : Lib) : JSON → Except Error Any
  | .null => .ok .nil
  | .bool b => .ok (.bool b)
  | .num q =>
    match L.parseFloat q with
    | some r => .ok (.float64 (.finite r))
    | none => .error .unmarshal
  | .str s => .ok (.string s)
  | .arr xs =>
    match decodeAnyElems L xs with
    | .error err => .error err
    | .ok as => .ok (.slice as)
  | .obj kvs =>
    match decodeAnyMembers L [] kvs with
    | .error err => .error err
    | .ok m => .ok (.map m)
/-- The elements of a JSON array decoded into a `[]interface{}`. -/
def decodeAnyElems (L : Lib) : List JSON → Except Error (List Any)
  | [] => .ok []
  | x :: xs =>
    match decodeAny L x with
    | .error err => .error err
    | .ok a =>
      match decodeAnyElems L xs with
      | .error err => .error err
      | .ok as => .ok (a :: as)
/-- The members of a JSON object decoded into a `map[string]interface{}` that
holds `m`. -/
def decodeAnyMembers (L : Lib) : GoMap Any → List (String × JSON) → Except Error (GoMap Any)
  | m, [] => .ok m
  | m, (k, v) :: kvs =>
    match decodeAny L v with
    | .error err => .error err
    | .ok a => decodeAnyMembers L (m.set k a) kvs
end

/-- The call `json.Unmarshal(data, &responseMap)` with `responseMap` a nil
`map[string]interface{}`. -/
def unmarshalMap (L : Lib) : Body → Except Error (GoMap Any)
  | .malformed _ => .error .malformedJSON
  | .wellFormed .null => .ok []
  | .wellFormed (.obj kvs) => decodeAnyMembers L [] kvs
  | .wellFormed _ => .error .unmarshal

/-! ## The package -/

/-- The constant `URL` (api.go line 17). -/
def URL : String := "api.cyphergoat.com"

/-- The network: for a request URL, the error of the HTTP round trip or the
bytes of the response body, whatever the HTTP status. -/
abbrev Transport := String → Except Error Body

/-- The function `SendRequest` (api.go lines 78-109). -/
def SendRequest (L : Lib) (net : Transport) (url : String) : Except Error Body :=
  match net url with
  | .error err => .error err
  | .ok data =>
    match unmarshalMap L data with
    | .error err => .error err
    | .ok responseMap =>
      match (mapIndex responseMap "error").asString with
      | some errStr => .error (Errorf L "%s" [.str errStr])
      | none => .ok data

/-- The loop of api.go lines 148-154 on one element. -/
def annotate (coin1 coin2 : String) (amount : Float64) (network1 network2 : String)
    (e : Estimate) : Estimate :=
  { e with Coin1 := coin1, Coin2 := coin2, SendAmount := amount,
           Network1 := network1, Network2 := network2 }

/-- The `less` function handed to `sort.Slice` (api.go lines 144-146). -/
def ratesLess (a b : Estimate) : Bool :=
  a.ReceiveAmount.gt b.ReceiveAmount

/-- The URL that `FetchEstimateFromAPI` requests (api.go lines 112-117). -/
def estimateURL (L : Lib) (coin1 coin2 : String) (amount : Float64) (best : Bool)
    (network1 network2 : String) : String :=
  if best then
    Sprintf L "https://%s/estimate?coin1=%s&coin2=%s&amount=%f&network1=%s&network2=%s&best=true"
      [.str URL, .str coin1, .str coin2, .float amount, .str network1, .str network2]
  else
    Sprintf L "https://%s/estimate?coin1=%s&coin2=%s&amount=%f&network1=%s&network2=%s&best=false"
      [.str URL, .str coin1, .str coin2, .float amount, .str network1, .str network2]

/-- The function `FetchEstimateFromAPI` (api.go lines 111-157).  `.error err`
stands for the result `nil, err`, and `.ok rates` for `rates, nil`. -/
def FetchEstimateFromAPI (L : Lib) (net : Transport) (coin1 coin2 : String)
    (amount : Float64) (best : Bool) (network1 network2 : String) :
    Except Error (List Estimate) :=
  match SendRequest L net (estimateURL L coin1 coin2 amount best network1 network2) with
  | .error err => .error err
  | .ok data =>
    match unmarshalMap L data with
    | .error err => .error err
    | .ok responseMap =>
      match (mapIndex responseMap "error").asString with
      | some errStr => .error (Errorf L "%s" [.str errStr])
      | none =>
        match unmarshalApiResponse L data with
        | .error err => .error err
        | .ok rates =>
          .ok ((L.sortSlice ratesLess rates).map (annotate coin1 coin2 amount network1 network2))

/-- The URL that `CreateTradeFromAPI` requests (api.go line 160). -/
def swapURL (L : Lib) (coin1 coin2 : String) (amount : Float64)
    (address partner network1 network2 : String) : String :=
  Sprintf L "https://%s/swap?coin1=%s&coin2=%s&amount=%f&partner=%s&address=%s&network1=%s&network2=%s"
    [.str URL, .str coin1, .str coin2, .float amount, .str partner, .str address,
     .str network1, .str network2]

/-- The function `CreateTradeFromAPI` (api.go lines 159-178).  The pair is the
pair the Go function returns, `none` standing for a nil error. -/
def CreateTradeFromAPI (L : Lib) (net : Transport) (coin1 coin2 : String)
    (amount : Float64) (address partner network1 network2 : String) :
    Option Error × Transaction :=
  match SendRequest L net (swapURL L coin1 coin2 amount address partner network1 network2) with
  | .error err => (some err, Transaction.zero)
  | .ok data =>
    match unmarshalTransactionResponse L data with
    | .error err => (some err, Transaction.zero)
    | .ok transaction => (none, transaction)

/-- The URL that `TrackTxFromAPI` requests (api.go line 181): a format string
with two verbs and three operands. -/
def trackURL (L : Lib) (t : Transaction) : String :=
  Sprintf L "https://%s/transaction?id=%s" [.str URL, .str (L.toLower t.Provider), .str t.Id]

/-- The function `TrackTxFromAPI` (api.go lines 180-202). -/
def TrackTxFromAPI (L : Lib) (net : Transport) (t : Transaction) :
    Option Error × Transaction :=
  match SendRequest L net (trackURL L t) with
  | .error err => (some err, t)
  | .ok data =>
    match unmarshalMap L data with
    | .error err => (some err, t)
    | .ok responseMap =>
      match (mapIndex responseMap "status").asString with
      | none => (some (Errorf L "status field is missing or not a string" []), Transaction.zero)
      | some status => (none, { t with Status := status })

/-- The URL that `GetTransactionFromAPI` requests (api.go line 205). -/
def transactionURL (L : Lib) (id : String) : String :=
  Sprintf L "https://%s/transaction?id=%s" [.str URL, .str id]

/-- The function `GetTransactionFromAPI` (api.go lines 204-219). -/
def GetTransactionFromAPI (L : Lib) (net : Transport) (id : String) :
    Option Error × Transaction :=
  match SendRequest L net (transactionURL L id) with
  | .error err => (some err, Transaction.zero)
  | .ok data =>
    match unmarshalTransactionMap L data with
    | .error err => (some err, Transaction.zero)
    | .ok result => (none, (result.get? "transaction").getD Transaction.zero)

/-! ## Vocabulary of the statements -/

/-- The transport that answers every request with the body `data`. -/
def respond (data : Body) : Transport := fun _ => .ok data

/-- The value of the member `k` of a JSON object: as in a Go map, the last
member with that key counts. -/
def member : List (String × JSON) → String → Option JSON
  | [], _ => none
  | (k2, v) :: kvs, k =>
    match member kvs k with
    | some w => some w
    | none => if k2 == k then some v else none

/-- The message of the error `TrackTxFromAPI` makes when it finds no status. -/
def missingStatus : Error :=
  .errorf "status field is missing or not a string"

/-- What `sort.Slice` asks of `less` on the elements it sorts: no element is
less than itself, and `less` is transitive both where it holds and where it
fails. -/
def IsOrdering {α : Type} (less : α → α → Bool) (xs : List α) : Prop :=
  (∀ a ∈ xs, less a a = false) ∧
  (∀ a ∈ xs, ∀ b ∈ xs, ∀ c ∈ xs, less a b = true → less b c = true → less a c = true) ∧
  (∀ a ∈ xs, ∀ b ∈ xs, ∀ c ∈ xs, less a b = false → less b c = false → less a c = false)

/-- The contract of `sort.Slice`: it permutes the slice, and when `less` is an
ordering of the elements no element is less than one that precedes it. -/
def Lib.SortsSlices (L : Lib) : Prop :=
  ∀ (α : Type) (less : α → α → Bool) (xs : List α),
    (L.sortSlice less xs).Perm xs ∧
    (IsOrdering less xs → (L.sortSlice less xs).Pairwise (fun a b => less b a = false))

/-- The ReceiveAmount of the Estimate is a finite `float64`. -/
def FiniteAmount (e : Estimate) : Prop :=
  ∃ q, e.ReceiveAmount = .finite q

/-- The fields of an `Estimate` that `FetchEstimateFromAPI` does not overwrite:
ExchangeName, ReceiveAmount, MinAmount, Address and ImageURL. -/
def kept (e : Estimate) : String × Float64 × Float64 × String × String :=
  (e.ExchangeName, e.ReceiveAmount, e.MinAmount, e.Address, e.ImageURL)

/-! ## A library instance that can be run

`refLib` fills the fields of `Lib` with executable functions.  It follows the Go
library on ASCII text, on decimal literals of any size, and on timestamps in the
form `2006-01-02T15:04:05.999999999Z07:00`. -/

/-- The integer nearest to `n / d`, a tie going to the even one (`d` positive). -/
def roundHalfEven (n d : Nat) : Nat :=
  if 2 * (n % d) < d then n / d
  else if d < 2 * (n % d) then n / d + 1
  else if (n / d) % 2 = 0 then n / d
  else n / d + 1

/-- The number of binary digits of `n`, by halving at most `fuel` times. -/
def bitLength : Nat → Nat → Nat
  | 0, _ => 0
  | fuel + 1, n => if n = 0 then 0 else bitLength fuel (n / 2) + 1

/-- The binary exponent of the positive rational `n / d`: the integer `e` with
`2 ^ e ≤ n / d < 2 ^ (e + 1)`. -/
def binaryExponent (n d : Nat) : Int :=
  let e : Int := (bitLength n n : Int) - (bitLength d d : Int)
  if 0 ≤ e then
    (if 2 ^ e.toNat * d ≤ n then e else e - 1)
  else
    (if d ≤ 2 ^ (-e).toNat * n then e else e - 1)

/-- The value `m * 2 ^ s` as a rational. -/
def scale2 (m : Nat) (s : Int) : ℚ :=
  if 0 ≤ s then ((m * 2 ^ s.toNat : Nat) : ℚ) else (m : ℚ) / ((2 ^ (-s).toNat : Nat) : ℚ)

/-- The `float64` nearest to `q` under IEEE 754 round-to-nearest-even, or `none`
when `q` rounds past the largest finite `float64`. -/
def parseFloat64 (q : ℚ) : Option ℚ :=
  let n := q.num.natAbs
  let d := q.den
  if n = 0 then some 0
  else
    let e : Int := max (binaryExponent n d) (-1022)
    let s : Int := e - 52
    let m : Nat := if 0 ≤ s then roundHalfEven n (d * 2 ^ s.toNat)
                   else roundHalfEven (n * 2 ^ (-s).toNat) d
    if 1023 < e ∨ (e = 1023 ∧ m = 2 ^ 53) then none
    else if q < 0 then some (- scale2 m s)
    else some (scale2 m s)

/-- A character mapped over a string. -/
def mapChars (f : Char → Char) (s : String) : String :=
  String.mk (s.data.map f)

/-- The decimal value of the digits `cs`, when it lies between `lo` and `hi`. -/
def parseUint (cs : List Char) (lo hi : Nat) : Option Nat :=
  if cs.all Char.isDigit then
    (let x := cs.foldl (fun acc c => acc * 10 + (c.toNat - 48)) 0
     if lo ≤ x ∧ x ≤ hi then some x else none)
  else none

/-- The number of days of a month of the Gregorian calendar. -/
def daysIn (month year : Nat) : Nat :=
  if month = 2 then
    (if year % 4 = 0 ∧ (year % 100 ≠ 0 ∨ year % 400 = 0) then 29 else 28)
  else if month = 4 ∨ month = 6 ∨ month = 9 ∨ month = 11 then 30
  else 31

/-- The zone of an RFC 3339 timestamp, in seconds east of UTC. -/
def parseZone (cs : List Char) : Option Int :=
  match cs with
  | ['Z'] => some 0
  | [sign, h1, h2, ':', m1, m2] =>
    match parseUint [h1, h2] 0 23, parseUint [m1, m2] 0 59 with
    | some hr, some mm =>
      if sign = '+' then some (((hr * 60 + mm) * 60 : Nat) : Int)
      else if sign = '-' then some (- (((hr * 60 + mm) * 60 : Nat) : Int))
      else none
    | _, _ => none
  | _ => none

/-- The fraction of a second and the zone that follow the seconds. -/
def parseFractionZone (cs : List Char) : Option (Nat × Int) :=
  match cs with
  | '.' :: c :: rest =>
    if c.isDigit then
      (let digits := (c :: rest).takeWhile Char.isDigit
       let used := digits.take 9
       let ns := used.foldl (fun acc c => acc * 10 + (c.toNat - 48)) 0 * 10 ^ (9 - used.length)
       (parseZone ((c :: rest).dropWhile Char.isDigit)).map (fun z => (ns, z)))
    else none
  | _ => (parseZone cs).map (fun z => (0, z))

/-- An RFC 3339 timestamp. -/
def parseRFC3339 (s : String) : Option Time :=
  match s.data with
  | y1 :: y2 :: y3 :: y4 :: '-' :: mo1 :: mo2 :: '-' :: d1 :: d2 :: 'T' ::
      h1 :: h2 :: ':' :: mi1 :: mi2 :: ':' :: s1 :: s2 :: rest =>
    match parseUint [y1, y2, y3, y4] 0 9999, parseUint [mo1, mo2] 1 12 with
    | some year, some month =>
      match parseUint [d1, d2] 1 (daysIn month year), parseUint [h1, h2] 0 23,
            parseUint [mi1, mi2] 0 59, parseUint [s1, s2] 0 59, parseFractionZone rest with
      | some day, some hour, some minute, some second, some (ns, z) =>
        some ⟨year, month, day, hour, minute, second, ns, z⟩
      | _, _, _, _, _ => none
    | _, _ => none
  | _ => none

/-- The digits of `n`, padded with zeros on the left to `width` characters. -/
def padDigits (width n : Nat) : String :=
  String.mk (List.replicate (width - (toString n).length) '0') ++ toString n

/-- A `float64` under the verb `%f`: six digits after the point. -/
def formatFixed6 : Float64 → String
  | .nan => "NaN"
  | .posInf => "+Inf"
  | .negInf => "-Inf"
  | .finite v =>
    let m := roundHalfEven (v.num.natAbs * 10 ^ 6) v.den
    (if v < 0 then "-" else "") ++ toString (m / 10 ^ 6) ++ "." ++ padDigits 6 (m % 10 ^ 6)

/-- The operands of the package: a `float64` under `%f`, a string under `%v`.
The package uses no other verb; for one, the verb is printed back. -/
def refFormatOperand (verb : Char) : Arg → String
  | .str s => if verb = 'v' then s else "%" ++ String.singleton verb
  | .float f => if verb = 'f' then formatFixed6 f else "%" ++ String.singleton verb

/-- An element put before the first element it is less than. -/
def insertSorted {α : Type} (less : α → α → Bool) (a : α) : List α → List α
  | [] => [a]
  | b :: l => if less a b then a :: b :: l else b :: insertSorted less a l

/-- Insertion sort. -/
def insertionSort {α : Type} (less : α → α → Bool) : List α → List α
  | [] => []
  | a :: l => insertSorted less a (insertionSort less l)

/-- Equality of two results of type `Except` is decidable. -/
instance instDecidableEqExcept {ε α : Type} [DecidableEq ε] [DecidableEq α] :
    DecidableEq (Except ε α)
  | .ok a, .ok b =>
    if h : a = b then isTrue (congrArg Except.ok h)
    else isFalse (fun h2 => h (Except.ok.inj h2))
  | .error a, .error b =>
    if h : a = b then isTrue (congrArg Except.error h)
    else isFalse (fun h2 => h (Except.error.inj h2))
  | .ok _, .error _ => isFalse (fun h2 => Except.noConfusion h2)
  | .error _, .ok _ => isFalse (fun h2 => Except.noConfusion h2)

/-- The library instance. -/
def refLib : Lib where
  parseFloat := parseFloat64
  foldName := mapChars Char.toUpper
  parseTime := parseRFC3339
  toLower := mapChars Char.toLower
  formatOperand := refFormatOperand
  sortSlice := fun less xs => insertionSort less xs

/-- The body
`{"rates":[{"Exchange":"a","Amount":1,"Coin1":"zzz","SendAmount":99},{"Exchange":"b","Amount":2}]}`. -/
def sampleRates : Body :=
  .wellFormed (.obj [("rates", .arr
    [.obj [("Exchange", .str "a"), ("Amount", .num 1), ("Coin1", .str "zzz"),
           ("SendAmount", .num 99)],
     .obj [("Exchange", .str "b"), ("Amount", .num 2)]])])

/-- What `FetchEstimateFromAPI("btc", "xmr", 3, true, "bitcoin", "monero")` returns
on the body `sampleRates`. -/
def sampleQuotes : List Estimate :=
  [{ ExchangeName := "b", ReceiveAmount := .finite 2, MinAmount := .finite 0,
     Network1 := "bitcoin", Network2 := "monero", Coin1 := "btc", Coin2 := "xmr",
     SendAmount := .finite 3, Address := "", ImageURL := "" },
   { ExchangeName := "a", ReceiveAmount := .finite 1, MinAmount := .finite 0,
     Network1 := "bitcoin", Network2 := "monero", Coin1 := "btc", Coin2 := "xmr",
     SendAmount := .finite 3, Address := "", ImageURL := "" }]

/-- The JSON number `1e400`, which is larger than every `float64`. -/
def oneE400 : JSON := .num ((10 ^ 400 : ℕ) : ℚ)

/-- The Transaction `{Provider: "X", Id: "123", SendAmount: 5}`. -/
def sampleTx : Transaction :=
  { Transaction.zero with Provider := "X", Id := "123", SendAmount := .finite 5 }


/-! ## `fmt` on the format strings of the package -/

theorem Sprintf_s (L : Lib) (m : String) : Sprintf L "%s" [.str m] = m := by
  simp [Sprintf, doPrintf, fmtArg]

theorem Errorf_s (L : Lib) (m : String) : Errorf L "%s" [.str m] = .errorf m := by
  simp [Errorf, Sprintf_s]

theorem Errorf_missing (L : Lib) :
    Errorf L "status field is missing or not a string" [] = missingStatus := by
  rfl

theorem trackURL_eq (L : Lib) (t : Transaction) :
    trackURL L t = "https://api.cyphergoat.com/transaction?id=" ++ L.toLower t.Provider
      ++ "%!(EXTRA string=" ++ t.Id ++ ")" := by
  simp [trackURL, Sprintf, doPrintf, fmtArg, URL, extraOperand, String.intercalate]
  apply String.ext
  simp [String.intercalate.go, String.singleton, String.data_append]

/-! ## Go maps and the generic decoding -/

theorem GoMap.find?_filter_ne {α : Type} (m : GoMap α) (k k2 : String) (h : k ≠ k2) :
    (m.filter (fun e => !(e.1 == k))).find? (fun e => e.1 == k2)
      = m.find? (fun e => e.1 == k2) := by
  induction m with
  | nil => rfl
  | cons e m ih =>
    cases hkb : (e.1 == k) <;> cases hk2b : (e.1 == k2)
    · simp [List.filter_cons, List.find?_cons, hkb, hk2b, ih]
    · simp [List.filter_cons, List.find?_cons, hkb, hk2b]
    · simp [List.filter_cons, List.find?_cons, hkb, hk2b, ih]
    · exact absurd ((eq_of_beq hkb).symm.trans (eq_of_beq hk2b)) h

theorem GoMap.get?_set {α : Type} (m : GoMap α) (k k2 : String) (v : α) :
    (m.set k v).get? k2 = if k = k2 then some v else m.get? k2 := by
  by_cases h : k = k2
  · simp [GoMap.set, GoMap.get?, h]
  · simp [GoMap.set, GoMap.get?, h, GoMap.find?_filter_ne m k k2 h]

theorem decodeAny_asString (L : Lib) (v : JSON) (a : Any) (s : String)
    (h : decodeAny L v = .ok a) : a.asString = some s ↔ v = .str s := by
  cases v with
  | null => simp [decodeAny] at h; subst h; simp [Any.asString]
  | bool b => simp [decodeAny] at h; subst h; simp [Any.asString]
  | num q =>
    simp only [decodeAny] at h
    split at h
    · injection h with h; subst h; simp [Any.asString]
    · cases h
  | str s2 => simp [decodeAny] at h; subst h; simp [Any.asString]
  | arr xs =>
    simp only [decodeAny] at h
    split at h
    · cases h
    · injection h with h; subst h; simp [Any.asString]
  | obj kvs =>
    simp only [decodeAny] at h
    split at h
    · cases h
    · injection h with h; subst h; simp [Any.asString]

theorem decodeAnyMembers_get? (L : Lib) (k : String) :
    ∀ (kvs : List (String × JSON)) (m0 m : GoMap Any),
      decodeAnyMembers L m0 kvs = .ok m →
      m.get? k = (match member kvs k with
        | some v => (decodeAny L v).toOption
        | none => m0.get? k) := by
  intro kvs
  induction kvs with
  | nil =>
    intro m0 m h
    simp [decodeAnyMembers] at h
    subst h
    simp [member]
  | cons kv kvs ih =>
    intro m0 m h
    obtain ⟨k2, v⟩ := kv
    simp only [decodeAnyMembers] at h
    split at h
    · cases h
    · rename_i a ha
      have h2 := ih _ _ h
      rw [h2]
      simp only [member]
      cases hm : member kvs k with
      | some w => rfl
      | none =>
        simp only [GoMap.get?_set]
        by_cases hk : k2 = k
        · simp [hk, ha, Except.toOption]
        · simp [hk]

/-- The string under a key of the decoded map is the string member of the
object under that key. -/
theorem unmarshalMap_asString (L : Lib) (kvs : List (String × JSON)) (m : GoMap Any)
    (k s : String) (h : unmarshalMap L (.wellFormed (.obj kvs)) = .ok m) :
    (mapIndex m k).asString = some s ↔ member kvs k = some (.str s) := by
  simp only [unmarshalMap] at h
  have h2 := decodeAnyMembers_get? L k kvs [] m h
  simp only [mapIndex, h2]
  cases hm : member kvs k with
  | none => simp [GoMap.get?, Any.asString]
  | some v =>
    cases hv : decodeAny L v with
    | error e =>
      have hne : v ≠ .str s := by
        intro h3
        subst h3
        simp [decodeAny] at hv
      simp [hv, Except.toOption, Any.asString, hne]
    | ok a =>
      simp only [hv, Except.toOption, Option.getD]
      rw [decodeAny_asString L v a s hv]
      simp

theorem unmarshalMap_asString_none (L : Lib) (kvs : List (String × JSON)) (m : GoMap Any)
    (k : String) (h : unmarshalMap L (.wellFormed (.obj kvs)) = .ok m) :
    (mapIndex m k).asString = none ↔ ∀ s, member kvs k ≠ some (.str s) := by
  constructor
  · intro h2 s h3
    rw [(unmarshalMap_asString L kvs m k s h).2 h3] at h2
    cases h2
  · intro h2
    cases h3 : (mapIndex m k).asString with
    | none => rfl
    | some s => exact absurd ((unmarshalMap_asString L kvs m k s h).1 h3) (h2 s)

/-! ## `SendRequest` -/

theorem SendRequest_transport_error (L : Lib) (net : Transport) (url : String) (err : Error)
    (h : net url = .error err) : SendRequest L net url = .error err := by
  simp [SendRequest, h]

theorem SendRequest_unmarshal_error (L : Lib) (net : Transport) (url : String) (data : Body)
    (err : Error) (h : net url = .ok data) (h2 : unmarshalMap L data = .error err) :
    SendRequest L net url = .error err := by
  simp [SendRequest, h, h2]

theorem SendRequest_remote_error (L : Lib) (net : Transport) (url : String) (data : Body)
    (responseMap : GoMap Any) (msg : String) (h : net url = .ok data)
    (h2 : unmarshalMap L data = .ok responseMap)
    (h3 : (mapIndex responseMap "error").asString = some msg) :
    SendRequest L net url = .error (.errorf msg) := by
  simp [SendRequest, h, h2, h3, Errorf_s]

theorem SendRequest_ok (L : Lib) (net : Transport) (url : String) (data : Body)
    (responseMap : GoMap Any) (h : net url = .ok data)
    (h2 : unmarshalMap L data = .ok responseMap)
    (h3 : (mapIndex responseMap "error").asString = none) :
    SendRequest L net url = .ok data := by
  simp [SendRequest, h, h2, h3]

/-- A successful `SendRequest` returns the body the transport gave, and that
body decodes into a map without a string under `error`. -/
theorem SendRequest_ok_inv (L : Lib) (net : Transport) (url : String) (data : Body)
    (h : SendRequest L net url = .ok data) :
    net url = .ok data ∧ ∃ responseMap, unmarshalMap L data = .ok responseMap ∧
      (mapIndex responseMap "error").asString = none := by
  unfold SendRequest at h
  split at h
  · cases h
  · rename_i data2 hnet
    split at h
    · cases h
    · rename_i responseMap hmap
      split at h
      · cases h
      · rename_i herr
        injection h with h
        subst h
        exact ⟨hnet, responseMap, hmap, herr⟩

/-! ## The claims on errors -/

/-- C1: when the response body parses (is decoded by `json.Unmarshal` into the
generic map without error) as a JSON object whose member `error` is a string
`m`, each of the four operations fails with an error whose message is exactly
`m`, whatever the other members are: `FetchEstimateFromAPI` returns no list,
and the three others return the error (with the zero Transaction, or the input
Transaction for `TrackTxFromAPI`), never a nil error. -/
theorem C1_error_member_fails_every_operation (L : Lib) (kvs : List (String × JSON))
    (responseMap : GoMap Any) (m : String)
    (hparse : unmarshalMap L (.wellFormed (.obj kvs)) = .ok responseMap)
    (herr : member kvs "error" = some (.str m))
    (coin1 coin2 address partner network1 network2 id : String) (amount : Float64)
    (best : Bool) (t : Transaction) :
    FetchEstimateFromAPI L (respond (.wellFormed (.obj kvs))) coin1 coin2 amount best
        network1 network2 = .error (.errorf m) ∧
    CreateTradeFromAPI L (respond (.wellFormed (.obj kvs))) coin1 coin2 amount address partner
        network1 network2 = (some (.errorf m), Transaction.zero) ∧
    TrackTxFromAPI L (respond (.wellFormed (.obj kvs))) t = (some (.errorf m), t) ∧
    GetTransactionFromAPI L (respond (.wellFormed (.obj kvs))) id
        = (some (.errorf m), Transaction.zero) := by
  have hs : ∀ url, SendRequest L (respond (.wellFormed (.obj kvs))) url = .error (.errorf m) :=
    fun url => SendRequest_remote_error L _ url _ responseMap m rfl hparse
      ((unmarshalMap_asString L kvs responseMap "error" m hparse).2 herr)
  refine ⟨?_, ?_, ?_, ?_⟩
  · simp only [FetchEstimateFromAPI, hs]
  · simp only [CreateTradeFromAPI, hs]
  · simp only [TrackTxFromAPI, hs]
  · simp only [GetTransactionFromAPI, hs]

/-- Witness of C1: the body
`{"error":"no route","rates":[],"transaction":{"Id":"abc"},"status":"confirmed"}`. -/
theorem C1_witness :
    FetchEstimateFromAPI refLib
        (respond (.wellFormed (.obj [("error", .str "no route"), ("rates", .arr []),
          ("transaction", .obj [("Id", .str "abc")]), ("status", .str "confirmed")])))
        "btc" "xmr" (.finite 1) true "bitcoin" "monero" = .error (.errorf "no route") ∧
    TrackTxFromAPI refLib
        (respond (.wellFormed (.obj [("error", .str "no route"), ("rates", .arr []),
          ("transaction", .obj [("Id", .str "abc")]), ("status", .str "confirmed")])))
        Transaction.zero = (some (.errorf "no route"), Transaction.zero) :=
  have h := C1_error_member_fails_every_operation refLib
    [("error", .str "no route"), ("rates", .arr []),
      ("transaction", .obj [("Id", .str "abc")]), ("status", .str "confirmed")]
    _ "no route" rfl rfl "btc" "xmr" "addr" "partner" "bitcoin" "monero" "abc" (.finite 1) true
    Transaction.zero
  ⟨h.1, h.2.2.1⟩

/-- C7: when the response body is not well-formed JSON, each of the four
operations returns the decode error of `json.Unmarshal` and no success:
`FetchEstimateFromAPI` returns no list, `CreateTradeFromAPI` and
`GetTransactionFromAPI` return the zero Transaction with the error, and
`TrackTxFromAPI` returns the input Transaction with the error. -/
theorem C7_malformed_body_fails_every_operation (L : Lib) (raw : String)
    (coin1 coin2 address partner network1 network2 id : String) (amount : Float64)
    (best : Bool) (t : Transaction) :
    FetchEstimateFromAPI L (respond (.malformed raw)) coin1 coin2 amount best
        network1 network2 = .error .malformedJSON ∧
    CreateTradeFromAPI L (respond (.malformed raw)) coin1 coin2 amount address partner
        network1 network2 = (some .malformedJSON, Transaction.zero) ∧
    TrackTxFromAPI L (respond (.malformed raw)) t = (some .malformedJSON, t) ∧
    GetTransactionFromAPI L (respond (.malformed raw)) id
        = (some .malformedJSON, Transaction.zero) := by
  have hs : ∀ url, SendRequest L (respond (.malformed raw)) url = .error .malformedJSON :=
    fun url => SendRequest_unmarshal_error L _ url _ _ rfl rfl
  refine ⟨?_, ?_, ?_, ?_⟩
  · simp only [FetchEstimateFromAPI, hs]
  · simp only [CreateTradeFromAPI, hs]
  · simp only [TrackTxFromAPI, hs]
  · simp only [GetTransactionFromAPI, hs]

/-! ## `TrackTxFromAPI` -/

theorem TrackTx_send_error (L : Lib) (net : Transport) (t : Transaction) (err : Error)
    (h : SendRequest L net (trackURL L t) = .error err) :
    TrackTxFromAPI L net t = (some err, t) := by
  simp only [TrackTxFromAPI, h]

theorem TrackTx_send_ok (L : Lib) (net : Transport) (t : Transaction) (data : Body)
    (responseMap : GoMap Any) (h : SendRequest L net (trackURL L t) = .ok data)
    (h2 : unmarshalMap L data = .ok responseMap) :
    TrackTxFromAPI L net t =
      (match (mapIndex responseMap "status").asString with
       | none => (some missingStatus, Transaction.zero)
       | some status => (none, { t with Status := status })) := by
  simp only [TrackTxFromAPI, h, h2, Errorf_missing]

/-- The outcome of `TrackTxFromAPI` on a body that decodes into the generic map
and has no string under `error`. -/
theorem TrackTx_respond (L : Lib) (t : Transaction) (data : Body) (responseMap : GoMap Any)
    (h2 : unmarshalMap L data = .ok responseMap)
    (h3 : (mapIndex responseMap "error").asString = none) :
    TrackTxFromAPI L (respond data) t =
      (match (mapIndex responseMap "status").asString with
       | none => (some missingStatus, Transaction.zero)
       | some status => (none, { t with Status := status })) :=
  TrackTx_send_ok L _ t data responseMap (SendRequest_ok L _ _ data responseMap rfl h2 h3) h2

/-- C10: the Transaction that `TrackTxFromAPI` returns with an error.  When the
request fails (the transport reports an error, or the body is not decoded into
the generic map, or the decoded map has a string under `error`) it is the input
Transaction and the error is the one of the request; when the body is decoded
and has no string under `status`, it is the zero Transaction, with the
missing-status error. -/
theorem C10_transaction_returned_with_an_error (L : Lib) (net : Transport) (t : Transaction) :
    (∀ err, net (trackURL L t) = .error err → TrackTxFromAPI L net t = (some err, t)) ∧
    (∀ data err, net (trackURL L t) = .ok data → unmarshalMap L data = .error err →
      TrackTxFromAPI L net t = (some err, t)) ∧
    (∀ data responseMap msg, net (trackURL L t) = .ok data →
      unmarshalMap L data = .ok responseMap →
      (mapIndex responseMap "error").asString = some msg →
      TrackTxFromAPI L net t = (some (.errorf msg), t)) ∧
    (∀ data responseMap, net (trackURL L t) = .ok data →
      unmarshalMap L data = .ok responseMap →
      (mapIndex responseMap "error").asString = none →
      (mapIndex responseMap "status").asString = none →
      TrackTxFromAPI L net t = (some missingStatus, Transaction.zero)) := by
  refine ⟨?_, ?_, ?_, ?_⟩
  · intro err h
    exact TrackTx_send_error L net t err (SendRequest_transport_error L net _ err h)
  · intro data err h h2
    exact TrackTx_send_error L net t err (SendRequest_unmarshal_error L net _ data err h h2)
  · intro data responseMap msg h h2 h3
    exact TrackTx_send_error L net t _ (SendRequest_remote_error L net _ data responseMap msg h h2 h3)
  · intro data responseMap h h2 h3 h4
    rw [TrackTx_send_ok L net t data responseMap (SendRequest_ok L net _ data responseMap h h2 h3) h2,
      h4]

/-- Witness of C10: for the Transaction `{Provider:"X", Id:"123", SendAmount:5}`, a
transport error, the malformed body `{`, the body `{"error":"no route"}`, the
body `{"state":"confirmed"}`, and the body `null`, which `json.Unmarshal` decodes
into a nil map. -/
theorem C10_witness :
    TrackTxFromAPI refLib (fun _ => .error (.transport "connection refused")) sampleTx
      = (some (.transport "connection refused"), sampleTx) ∧
    TrackTxFromAPI refLib (respond (.malformed "\x7b")) sampleTx
      = (some .malformedJSON, sampleTx) ∧
    TrackTxFromAPI refLib (respond (.wellFormed (.obj [("error", .str "no route")]))) sampleTx
      = (some (.errorf "no route"), sampleTx) ∧
    TrackTxFromAPI refLib (respond (.wellFormed (.obj [("state", .str "confirmed")]))) sampleTx
      = (some missingStatus, Transaction.zero) ∧
    TrackTxFromAPI refLib (respond (.wellFormed .null)) sampleTx
      = (some missingStatus, Transaction.zero) :=
  ⟨(C10_transaction_returned_with_an_error refLib _ sampleTx).1 _ rfl,
   (C10_transaction_returned_with_an_error refLib (respond (.malformed "\x7b")) sampleTx).2.1
      _ _ rfl rfl,
   (C10_transaction_returned_with_an_error refLib
      (respond (.wellFormed (.obj [("error", .str "no route")]))) sampleTx).2.2.1
      _ _ "no route" rfl rfl rfl,
   (C10_transaction_returned_with_an_error refLib
      (respond (.wellFormed (.obj [("state", .str "confirmed")]))) sampleTx).2.2.2
      _ _ rfl rfl rfl rfl,
   (C10_transaction_returned_with_an_error refLib (respond (.wellFormed .null)) sampleTx).2.2.2
      _ _ rfl rfl rfl rfl⟩

/-- C4, amended: for every input Transaction `t` and every response body that is
a JSON object which `json.Unmarshal` decodes into the generic map without error,
with no string member `error` and a string member `status` of value `s`,
`TrackTxFromAPI` returns a nil error and `t` with only `Status` replaced by `s`. -/
theorem C4_status_overlaid_on_input (L : Lib) (t : Transaction) (kvs : List (String × JSON))
    (responseMap : GoMap Any) (s : String)
    (hparse : unmarshalMap L (.wellFormed (.obj kvs)) = .ok responseMap)
    (hnoerr : ∀ m, member kvs "error" ≠ some (.str m))
    (hstatus : member kvs "status" = some (.str s)) :
    TrackTxFromAPI L (respond (.wellFormed (.obj kvs))) t = (none, { t with Status := s }) := by
  rw [TrackTx_respond L t _ responseMap hparse
      ((unmarshalMap_asString_none L kvs responseMap "error" hparse).2 hnoerr),
    (unmarshalMap_asString L kvs responseMap "status" s hparse).2 hstatus]

/-- Witness of C4: `t = {Provider:"X", Id:"123", SendAmount:5}` and the body
`{"status":"confirmed"}`. -/
theorem C4_witness :
    TrackTxFromAPI refLib (respond (.wellFormed (.obj [("status", .str "confirmed")]))) sampleTx
      = (none, { Transaction.zero with
          Provider := "X", Id := "123", SendAmount := .finite 5, Status := "confirmed" }) :=
  C4_status_overlaid_on_input refLib sampleTx [("status", .str "confirmed")] _ "confirmed"
    rfl (fun _ h => Option.noConfusion (h : (none : Option JSON) = some _)) rfl

/-- Counterexample to C4 as stated: the body `{"status":"confirmed","fee":1e400}`
is a JSON object with no member `error` and the string member `status`, and
`TrackTxFromAPI` returns the error of `json.Unmarshal` (the number does not fit
a `float64`) with the input Transaction, its `Status` not set. -/
theorem C4_counterexample :
    member [("status", .str "confirmed"), ("fee", oneE400)] "error" = none ∧
    member [("status", .str "confirmed"), ("fee", oneE400)] "status" = some (.str "confirmed") ∧
    TrackTxFromAPI refLib
        (respond (.wellFormed (.obj [("status", .str "confirmed"), ("fee", oneE400)]))) sampleTx
      = (some .unmarshal, sampleTx) :=
  ⟨rfl, rfl, by decide!⟩

/-- C5, amended: for every response body that is a JSON object which
`json.Unmarshal` decodes into the generic map without error and that has no
string member `error`, `TrackTxFromAPI` fails with the error
"status field is missing or not a string" if and only if the object has no
member `status` or its member `status` is not a string. -/
theorem C5_missing_status_iff (L : Lib) (t : Transaction) (kvs : List (String × JSON))
    (responseMap : GoMap Any)
    (hparse : unmarshalMap L (.wellFormed (.obj kvs)) = .ok responseMap)
    (hnoerr : ∀ m, member kvs "error" ≠ some (.str m)) :
    (TrackTxFromAPI L (respond (.wellFormed (.obj kvs))) t).1 = some missingStatus ↔
      (member kvs "status" = none ∨
        ∃ v, member kvs "status" = some v ∧ ∀ s, v ≠ .str s) := by
  rw [TrackTx_respond L t _ responseMap hparse
      ((unmarshalMap_asString_none L kvs responseMap "error" hparse).2 hnoerr)]
  have hiff := unmarshalMap_asString_none L kvs responseMap "status" hparse
  have hsyn : (∀ s, member kvs "status" ≠ some (.str s)) ↔
      (member kvs "status" = none ∨ ∃ v, member kvs "status" = some v ∧ ∀ s, v ≠ .str s) := by
    cases hm : member kvs "status" with
    | none => simp
    | some v =>
      constructor
      · intro h
        exact Or.inr ⟨v, rfl, fun s hs => h s (by rw [hs])⟩
      · intro h s hs
        rcases h with h | ⟨w, hw, hns⟩
        · cases h
        · injection hw with hw
          injection hs with hs
          exact hns s (hw ▸ hs)
  rw [← hsyn, ← hiff]
  cases (mapIndex responseMap "status").asString with
  | none => simp
  | some s => simp

/-- Witness of C5: the body `{"status":7}`, whose member `status` is a number. -/
theorem C5_witness :
    (TrackTxFromAPI refLib (respond (.wellFormed (.obj [("status", .num 7)]))) sampleTx).1
        = some missingStatus ∧
    (TrackTxFromAPI refLib (respond (.wellFormed (.obj [("status", .str "done")]))) sampleTx).1
        = none :=
  ⟨(C5_missing_status_iff refLib sampleTx [("status", .num 7)] _ rfl
      (fun _ h => Option.noConfusion (h : (none : Option JSON) = some _))).2
      (Or.inr ⟨.num 7, rfl, fun s h => JSON.noConfusion h⟩),
   by decide⟩

/-- Counterexample to C5 as stated: the body `{"fee":1e400}` is a well-formed JSON
object with no member `error` and no member `status`, and `TrackTxFromAPI` fails
with the error of `json.Unmarshal`, not with the missing-status error. -/
theorem C5_counterexample :
    member [("fee", oneE400)] "error" = none ∧
    member [("fee", oneE400)] "status" = none ∧
    (TrackTxFromAPI refLib (respond (.wellFormed (.obj [("fee", oneE400)]))) sampleTx).1
      = some .unmarshal ∧
    Error.unmarshal ≠ missingStatus :=
  ⟨rfl, rfl, by decide!, by decide⟩

/-! ## `GetTransactionFromAPI` -/

theorem decodeTransactionMapMembers_get? (L : Lib) (k : String) :
    ∀ (kvs : List (String × JSON)) (m0 m : GoMap Transaction),
      decodeTransactionMapMembers L m0 kvs = .ok m →
      m.get? k = (match member kvs k with
        | some v => (decodeTransaction L Transaction.zero v).toOption
        | none => m0.get? k) := by
  intro kvs
  induction kvs with
  | nil =>
    intro m0 m h
    simp [decodeTransactionMapMembers] at h
    subst h
    simp [member]
  | cons kv kvs ih =>
    intro m0 m h
    obtain ⟨k2, v⟩ := kv
    simp only [decodeTransactionMapMembers] at h
    split at h
    · cases h
    · rename_i a ha
      rw [ih _ _ h]
      simp only [member]
      cases hm : member kvs k with
      | some w => rfl
      | none =>
        simp only [GoMap.get?_set]
        by_cases hk : k2 = k
        · simp [hk, ha, Except.toOption]
        · simp [hk]

/-- When the whole object decodes, so does the value of each of its members. -/
theorem decodeTransactionMapMembers_member (L : Lib) (k : String) :
    ∀ (kvs : List (String × JSON)) (m0 m : GoMap Transaction) (v : JSON),
      decodeTransactionMapMembers L m0 kvs = .ok m → member kvs k = some v →
      ∃ tx, decodeTransaction L Transaction.zero v = .ok tx := by
  intro kvs
  induction kvs with
  | nil =>
    intro m0 m v _ hv
    simp [member] at hv
  | cons kv kvs ih =>
    intro m0 m v h hv
    obtain ⟨k2, w⟩ := kv
    simp only [decodeTransactionMapMembers] at h
    split at h
    · cases h
    · rename_i a ha
      simp only [member] at hv
      cases hm : member kvs k with
      | some u =>
        rw [hm] at hv
        injection hv with hv
        subst hv
        exact ih _ _ _ h hm
      | none =>
        rw [hm] at hv
        by_cases hk : (k2 == k) = true
        · simp only [hk, if_true] at hv
          injection hv with hv
          subst hv
          exact ⟨a, ha⟩
        · simp [hk] at hv

theorem member_none_of_no_key (k : String) :
    ∀ (kvs : List (String × JSON)), (∀ kv ∈ kvs, kv.1 ≠ k) → member kvs k = none := by
  intro kvs
  induction kvs with
  | nil => intro _; rfl
  | cons kv kvs ih =>
    intro h
    obtain ⟨k2, v⟩ := kv
    have h2 : k2 ≠ k := h (k2, v) (List.mem_cons_self _ _)
    simp [member, ih (fun kv hkv => h kv (List.mem_cons_of_mem _ hkv)), h2]

theorem GetTransaction_respond (L : Lib) (id : String) (data : Body) (responseMap : GoMap Any)
    (h2 : unmarshalMap L data = .ok responseMap)
    (h3 : (mapIndex responseMap "error").asString = none) :
    GetTransactionFromAPI L (respond data) id =
      (match unmarshalTransactionMap L data with
       | .error err => (some err, Transaction.zero)
       | .ok result => (none, (result.get? "transaction").getD Transaction.zero)) := by
  simp only [GetTransactionFromAPI,
    SendRequest_ok L (respond data) (transactionURL L id) data responseMap rfl h2 h3]

/-- C6, amended: for every response body that is a JSON object which
`json.Unmarshal` decodes into the generic map without error, that has no string
member `error`, and that decodes as a map of Transactions, `GetTransactionFromAPI`
returns a nil error and the Transaction stored under the key `transaction`, which
is the one decoded from the member `transaction` of the object; when the object
has no such member it returns the zero Transaction and a nil error. -/
theorem C6_returns_transaction_entry (L : Lib) (id : String) (kvs : List (String × JSON))
    (responseMap : GoMap Any) (result : GoMap Transaction)
    (hparse : unmarshalMap L (.wellFormed (.obj kvs)) = .ok responseMap)
    (hnoerr : ∀ m, member kvs "error" ≠ some (.str m))
    (hdecode : unmarshalTransactionMap L (.wellFormed (.obj kvs)) = .ok result) :
    GetTransactionFromAPI L (respond (.wellFormed (.obj kvs))) id
        = (none, (result.get? "transaction").getD Transaction.zero) ∧
    (∀ v, member kvs "transaction" = some v →
      ∃ tx, decodeTransaction L Transaction.zero v = .ok tx ∧
        result.get? "transaction" = some tx ∧
        GetTransactionFromAPI L (respond (.wellFormed (.obj kvs))) id = (none, tx)) ∧
    ((∀ kv ∈ kvs, kv.1 ≠ "transaction") →
      GetTransactionFromAPI L (respond (.wellFormed (.obj kvs))) id
        = (none, Transaction.zero)) := by
  have hget := GetTransaction_respond L id _ responseMap hparse
    ((unmarshalMap_asString_none L kvs responseMap "error" hparse).2 hnoerr)
  rw [hdecode] at hget
  simp only at hget
  have hentry := decodeTransactionMapMembers_get? L "transaction" kvs [] result hdecode
  refine ⟨hget, ?_, ?_⟩
  · intro v hv
    obtain ⟨tx, htx⟩ := decodeTransactionMapMembers_member L "transaction" kvs [] result v
      hdecode hv
    have hres : result.get? "transaction" = some tx := by
      rw [hentry, hv]
      simp [htx, Except.toOption]
    exact ⟨tx, htx, hres, by rw [hget, hres]; rfl⟩
  · intro hno
    have hres : result.get? "transaction" = none := by
      rw [hentry, member_none_of_no_key "transaction" kvs hno]
      rfl
    rw [hget, hres]
    rfl

/-- Witness of C6: the body `{"transaction": {"Id":"abc","Status":"pending"}}`
yields `Id = "abc"` and `Status = "pending"`, and the body `{}` yields the zero
Transaction. -/
theorem C6_witness :
    GetTransactionFromAPI refLib
        (respond (.wellFormed (.obj
          [("transaction", .obj [("Id", .str "abc"), ("Status", .str "pending")])]))) "abc"
      = (none, { Transaction.zero with Id := "abc", Status := "pending" }) ∧
    GetTransactionFromAPI refLib (respond (.wellFormed (.obj []))) "abc"
      = (none, Transaction.zero) :=
  ⟨(C6_returns_transaction_entry refLib "abc"
      [("transaction", .obj [("Id", .str "abc"), ("Status", .str "pending")])] _ _ rfl
      (fun _ h => Option.noConfusion (h : (none : Option JSON) = some _)) rfl).1,
   (C6_returns_transaction_entry refLib "abc" [] _ _ rfl
      (fun _ h => Option.noConfusion (h : (none : Option JSON) = some _)) rfl).2.2
      (fun _ h => nomatch h)⟩

/-- Counterexample to C6 as stated: the body `{"transaction":{"Id":"abc","fee":1e400}}`
is a JSON object with no member `error` that decodes as a map of Transactions (the
key `fee` names no field and is skipped), and `GetTransactionFromAPI` returns the
error of `json.Unmarshal` from `SendRequest`, with the zero Transaction. -/
theorem C6_counterexample :
    member [("transaction", .obj [("Id", .str "abc"), ("fee", oneE400)])] "error" = none ∧
    unmarshalTransactionMap refLib
        (.wellFormed (.obj [("transaction", .obj [("Id", .str "abc"), ("fee", oneE400)])]))
      = .ok [("transaction", { Transaction.zero with Id := "abc" })] ∧
    GetTransactionFromAPI refLib
        (respond (.wellFormed (.obj [("transaction", .obj [("Id", .str "abc"), ("fee", oneE400)])])))
        "abc"
      = (some .unmarshal, Transaction.zero) :=
  ⟨rfl, by decide!, by decide!⟩

/-! ## The URL of `TrackTxFromAPI` -/

theorem string_append_right_cancel (a b c : String) (h : a ++ c = b ++ c) : a = b := by
  have h2 := congrArg String.data h
  simp only [String.data_append] at h2
  exact String.ext (List.append_cancel_right h2)

theorem string_append_left_cancel (a b c : String) (h : c ++ a = c ++ b) : a = b := by
  have h2 := congrArg String.data h
  simp only [String.data_append] at h2
  exact String.ext (List.append_cancel_left h2)

/-- C9, amended: for every Transaction `t`, the request URL that `TrackTxFromAPI`
builds contains the transaction id `t.Id` and the lower-cased provider
`strings.ToLower(t.Provider)`, and depends on `t` through these two only: two
transactions with the same Id produce the same URL exactly when their Providers
are equal once lower-cased. -/
theorem C9_track_url_contents (L : Lib) (t : Transaction) :
    (∃ before after, trackURL L t = before ++ t.Id ++ after) ∧
    (∃ before after, trackURL L t = before ++ L.toLower t.Provider ++ after) ∧
    (∀ t2 : Transaction, t2.Id = t.Id →
      (trackURL L t2 = trackURL L t ↔ L.toLower t2.Provider = L.toLower t.Provider)) := by
  refine ⟨⟨_, _, trackURL_eq L t⟩, ⟨"https://api.cyphergoat.com/transaction?id=",
    "%!(EXTRA string=" ++ t.Id ++ ")", ?_⟩, ?_⟩
  · rw [trackURL_eq]
    simp only [String.append_assoc]
  · intro t2 hid
    rw [trackURL_eq, trackURL_eq, hid]
    constructor
    · intro h
      have h1 := string_append_right_cancel _ _ _ h
      have h2 := string_append_right_cancel _ _ _ h1
      have h3 := string_append_right_cancel _ _ _ h2
      exact string_append_left_cancel _ _ _ h3
    · intro h
      rw [h]

/-- Counterexample to C9 as stated: two transactions with the same Id `123` and
the Providers `X` and `Y` produce different URLs, each holding its provider in
lower case. -/
theorem C9_counterexample :
    trackURL refLib { Transaction.zero with Provider := "X", Id := "123" }
      = "https://api.cyphergoat.com/transaction?id=x%!(EXTRA string=123)" ∧
    trackURL refLib { Transaction.zero with Provider := "Y", Id := "123" }
      = "https://api.cyphergoat.com/transaction?id=y%!(EXTRA string=123)" ∧
    (trackURL refLib { Transaction.zero with Provider := "X", Id := "123" }
      == trackURL refLib { Transaction.zero with Provider := "Y", Id := "123" }) = false :=
  ⟨by decide, by decide, by decide⟩

/-! ## Decoded amounts are finite -/

theorem storeFloat64_finite (L : Lib) (cur x : Float64) (v : JSON)
    (h : storeFloat64 L cur v = .ok x) (hcur : ∃ q, cur = .finite q) : ∃ q, x = .finite q := by
  cases v with
  | null => simp [storeFloat64] at h; subst h; exact hcur
  | num q =>
    simp only [storeFloat64] at h
    split at h
    · rename_i r _
      injection h with h
      exact ⟨r, h.symm⟩
    · cases h
  | bool b => simp [storeFloat64] at h
  | str s => simp [storeFloat64] at h
  | arr xs => simp [storeFloat64] at h
  | obj kvs => simp [storeFloat64] at h

theorem setEstimateField_finite (L : Lib) (e e2 : Estimate) (f : EstimateField) (v : JSON)
    (h : setEstimateField L e f v = .ok e2) (hfin : FiniteAmount e) : FiniteAmount e2 := by
  cases f <;> simp only [setEstimateField, Except.map] at h <;> split at h <;> cases h
  all_goals first
    | exact hfin
    | exact storeFloat64_finite L _ _ v (by assumption) hfin

theorem decodeEstimateMembers_finite (L : Lib) :
    ∀ (kvs : List (String × JSON)) (e e2 : Estimate),
      decodeEstimateMembers L e kvs = .ok e2 → FiniteAmount e → FiniteAmount e2 := by
  intro kvs
  induction kvs with
  | nil =>
    intro e e2 h hfin
    simp [decodeEstimateMembers] at h
    subst h
    exact hfin
  | cons kv kvs ih =>
    intro e e2 h hfin
    obtain ⟨k, v⟩ := kv
    simp only [decodeEstimateMembers] at h
    split at h
    · exact ih _ _ h hfin
    · rename_i f _
      split at h
      · cases h
      · rename_i e3 he3
        exact ih _ _ h (setEstimateField_finite L e e3 f v he3 hfin)

theorem decodeEstimate_finite (L : Lib) (cur e : Estimate) (v : JSON)
    (h : decodeEstimate L cur v = .ok e) (hfin : FiniteAmount cur) : FiniteAmount e := by
  cases v with
  | null => simp [decodeEstimate] at h; subst h; exact hfin
  | obj kvs => exact decodeEstimateMembers_finite L kvs cur e h hfin
  | bool b => simp [decodeEstimate] at h
  | num q => simp [decodeEstimate] at h
  | str s => simp [decodeEstimate] at h
  | arr xs => simp [decodeEstimate] at h

theorem Estimate.zero_finite : FiniteAmount Estimate.zero := ⟨0, rfl⟩

theorem decodeEstimateElems_finite (L : Lib) :
    ∀ (xs : List JSON) (olds es : List Estimate),
      decodeEstimateElems L olds xs = .ok es → (∀ e ∈ olds, FiniteAmount e) →
      ∀ e ∈ es, FiniteAmount e := by
  intro xs
  induction xs with
  | nil =>
    intro olds es h _
    simp [decodeEstimateElems] at h
    subst h
    intro e he
    cases he
  | cons x xs ih =>
    intro olds es h holds
    simp only [decodeEstimateElems] at h
    split at h
    · cases h
    · rename_i e1 he1
      split at h
      · cases h
      · rename_i es1 hes1
        injection h with h
        subst h
        have hhead : FiniteAmount (olds.headD Estimate.zero) := by
          cases olds with
          | nil => exact Estimate.zero_finite
          | cons o os => exact holds o (List.mem_cons_self _ _)
        have htail : ∀ e ∈ olds.tail, FiniteAmount e :=
          fun e he => holds e (List.mem_of_mem_tail he)
        intro e he
        rcases List.mem_cons.1 he with he | he
        · subst he
          exact decodeEstimate_finite L _ _ x he1 hhead
        · exact ih _ _ hes1 htail e he

theorem decodeRates_finite (L : Lib) (cur r : Slice Estimate) (v : JSON)
    (h : decodeRates L cur v = .ok r)
    (hcur : ∀ e ∈ cur.elems ++ cur.spare, FiniteAmount e) :
    ∀ e ∈ r.elems ++ r.spare, FiniteAmount e := by
  cases v with
  | null => simp [decodeRates] at h; subst h; simp [Slice.nil]
  | arr xs =>
    cases xs with
    | nil => simp [decodeRates] at h; subst h; simp [Slice.nil]
    | cons x xs =>
      simp only [decodeRates] at h
      split at h
      · cases h
      · rename_i es hes
        injection h with h
        subst h
        intro e he
        rcases List.mem_append.1 he with he | he
        · exact decodeEstimateElems_finite L _ _ _ hes hcur e he
        · exact hcur e (List.mem_of_mem_drop he)
  | bool b => simp [decodeRates] at h
  | num q => simp [decodeRates] at h
  | str s => simp [decodeRates] at h
  | obj kvs => simp [decodeRates] at h

theorem decodeApiResponseMembers_finite (L : Lib) :
    ∀ (kvs : List (String × JSON)) (r r2 : Slice Estimate),
      decodeApiResponseMembers L r kvs = .ok r2 →
      (∀ e ∈ r.elems ++ r.spare, FiniteAmount e) →
      ∀ e ∈ r2.elems ++ r2.spare, FiniteAmount e := by
  intro kvs
  induction kvs with
  | nil =>
    intro r r2 h hr
    simp [decodeApiResponseMembers] at h
    subst h
    exact hr
  | cons kv kvs ih =>
    intro r r2 h hr
    obtain ⟨k, v⟩ := kv
    simp only [decodeApiResponseMembers] at h
    split at h
    · exact ih _ _ h hr
    · split at h
      · cases h
      · rename_i r3 hr3
        exact ih _ _ h (decodeRates_finite L r r3 v hr3 hr)

/-- Every Estimate that `json.Unmarshal` decodes has a finite ReceiveAmount. -/
theorem unmarshalApiResponse_finite (L : Lib) (data : Body) (rates : List Estimate)
    (h : unmarshalApiResponse L data = .ok rates) : ∀ e ∈ rates, FiniteAmount e := by
  cases data with
  | malformed raw => simp [unmarshalApiResponse] at h
  | wellFormed v =>
    cases v with
    | null => simp [unmarshalApiResponse] at h; subst h; simp
    | obj kvs =>
      simp only [unmarshalApiResponse, Except.map] at h
      split at h
      · cases h
      · rename_i r hr
        injection h with h
        subst h
        intro e he
        exact decodeApiResponseMembers_finite L kvs Slice.nil r hr (by simp [Slice.nil]) e
          (List.mem_append_left _ he)
    | bool b => simp [unmarshalApiResponse] at h
    | num q => simp [unmarshalApiResponse] at h
    | str s => simp [unmarshalApiResponse] at h
    | arr xs => simp [unmarshalApiResponse] at h

/-! ## `sort.Slice` -/

theorem insertSorted_perm {α : Type} (less : α → α → Bool) (a : α) :
    ∀ l : List α, (insertSorted less a l).Perm (a :: l) := by
  intro l
  induction l with
  | nil => exact List.Perm.refl _
  | cons b l ih =>
    simp only [insertSorted]
    split
    · exact List.Perm.refl _
    · exact ((List.Perm.cons b ih).trans (List.Perm.swap a b l))

theorem insertionSort_perm {α : Type} (less : α → α → Bool) :
    ∀ l : List α, (insertionSort less l).Perm l := by
  intro l
  induction l with
  | nil => exact List.Perm.refl _
  | cons a l ih =>
    simp only [insertionSort]
    exact (insertSorted_perm less a _).trans (List.Perm.cons a ih)

theorem insertSorted_pairwise {α : Type} (less : α → α → Bool) (S : List α)
    (hord : IsOrdering less S) (a : α) (ha : a ∈ S) :
    ∀ l : List α, (∀ x ∈ l, x ∈ S) → l.Pairwise (fun x y => less y x = false) →
      (insertSorted less a l).Pairwise (fun x y => less y x = false) := by
  obtain ⟨hirr, htrans, _⟩ := hord
  intro l
  induction l with
  | nil =>
    intro _ _
    simp [insertSorted]
  | cons b l ih =>
    intro hS hl
    have hb : b ∈ S := hS b (List.mem_cons_self _ _)
    have hlS : ∀ x ∈ l, x ∈ S := fun x hx => hS x (List.mem_cons_of_mem _ hx)
    obtain ⟨hbl, hll⟩ := List.pairwise_cons.1 hl
    simp only [insertSorted]
    split
    · rename_i hab
      refine List.pairwise_cons.2 ⟨?_, hl⟩
      intro x hx
      rcases List.mem_cons.1 hx with hx | hx
      · subst hx
        cases hxa : less x a with
        | false => rfl
        | true =>
          have := htrans a ha x hb a ha hab hxa
          rw [hirr a ha] at this
          cases this
      · cases hxa : less x a with
        | false => rfl
        | true =>
          have := htrans x (hlS x hx) a ha b hb hxa hab
          rw [hbl x hx] at this
          cases this
    · rename_i hab
      refine List.pairwise_cons.2 ⟨?_, ih hlS hll⟩
      intro x hx
      rcases List.mem_cons.1 ((insertSorted_perm less a l).mem_iff.1 hx) with hx | hx
      · subst hx
        simpa using hab
      · exact hbl x hx

theorem insertionSort_pairwise {α : Type} (less : α → α → Bool) (S : List α)
    (hord : IsOrdering less S) :
    ∀ l : List α, (∀ x ∈ l, x ∈ S) →
      (insertionSort less l).Pairwise (fun x y => less y x = false) := by
  intro l
  induction l with
  | nil =>
    intro _
    simp [insertionSort]
  | cons a l ih =>
    intro hS
    simp only [insertionSort]
    refine insertSorted_pairwise less S hord a (hS a (List.mem_cons_self _ _)) _ ?_
      (ih (fun x hx => hS x (List.mem_cons_of_mem _ hx)))
    intro x hx
    exact hS x (List.mem_cons_of_mem _ ((insertionSort_perm less l).mem_iff.1 hx))

/-- The instance `refLib` meets the contract of `sort.Slice`. -/
theorem refLib_sortsSlices : refLib.SortsSlices := by
  intro α less xs
  exact ⟨insertionSort_perm less xs,
    fun hord => insertionSort_pairwise less xs hord xs (fun _ hx => hx)⟩

/-! ## `FetchEstimateFromAPI` -/

theorem ratesLess_isOrdering (xs : List Estimate) (h : ∀ e ∈ xs, FiniteAmount e) :
    IsOrdering ratesLess xs := by
  refine ⟨?_, ?_, ?_⟩
  · intro a ha
    obtain ⟨qa, hqa⟩ := h a ha
    simp [ratesLess, hqa, Float64.gt]
  · intro a ha b hb c hc
    obtain ⟨qa, hqa⟩ := h a ha
    obtain ⟨qb, hqb⟩ := h b hb
    obtain ⟨qc, hqc⟩ := h c hc
    simp only [ratesLess, hqa, hqb, hqc, Float64.gt, decide_eq_true_eq]
    intro h1 h2
    exact lt_trans h2 h1
  · intro a ha b hb c hc
    obtain ⟨qa, hqa⟩ := h a ha
    obtain ⟨qb, hqb⟩ := h b hb
    obtain ⟨qc, hqc⟩ := h c hc
    simp only [ratesLess, hqa, hqb, hqc, Float64.gt, decide_eq_false_iff_not, not_lt]
    intro h1 h2
    exact le_trans h1 h2

theorem ge_of_ratesLess_eq_false (a b : Estimate) (ha : FiniteAmount a) (hb : FiniteAmount b)
    (h : ratesLess b a = false) : a.ReceiveAmount.ge b.ReceiveAmount = true := by
  obtain ⟨qa, hqa⟩ := ha
  obtain ⟨qb, hqb⟩ := hb
  simp only [ratesLess, hqa, hqb, Float64.gt, decide_eq_false_iff_not, not_lt] at h
  simp only [hqa, hqb, Float64.ge, decide_eq_true_eq]
  exact h

/-- A successful `FetchEstimateFromAPI` returns the decoded rates, sorted and
then annotated with the arguments of the call. -/
theorem FetchEstimate_ok_inv (L : Lib) (net : Transport) (coin1 coin2 : String)
    (amount : Float64) (best : Bool) (network1 network2 : String) (result : List Estimate)
    (h : FetchEstimateFromAPI L net coin1 coin2 amount best network1 network2 = .ok result) :
    ∃ data rates,
      net (estimateURL L coin1 coin2 amount best network1 network2) = .ok data ∧
      unmarshalApiResponse L data = .ok rates ∧
      result = (L.sortSlice ratesLess rates).map
        (annotate coin1 coin2 amount network1 network2) := by
  unfold FetchEstimateFromAPI at h
  split at h
  · cases h
  · rename_i data hsend
    split at h
    · cases h
    · split at h
      · cases h
      · split at h
        · cases h
        · rename_i rates hrates
          injection h with h
          exact ⟨data, rates, (SendRequest_ok_inv L net _ data hsend).1, hrates, h.symm⟩

theorem FetchEstimate_decoded (L : Lib) (net : Transport) (coin1 coin2 : String)
    (amount : Float64) (best : Bool) (network1 network2 : String) (data : Body)
    (responseMap : GoMap Any) (rates : List Estimate)
    (h : net (estimateURL L coin1 coin2 amount best network1 network2) = .ok data)
    (h2 : unmarshalMap L data = .ok responseMap)
    (h3 : (mapIndex responseMap "error").asString = none)
    (h4 : unmarshalApiResponse L data = .ok rates) :
    FetchEstimateFromAPI L net coin1 coin2 amount best network1 network2
      = .ok ((L.sortSlice ratesLess rates).map (annotate coin1 coin2 amount network1 network2)) := by
  simp only [FetchEstimateFromAPI, SendRequest_ok L net _ data responseMap h h2 h3, h2, h3, h4]

theorem decodeApiResponseMembers_absent (L : Lib) (r : Slice Estimate) :
    ∀ kvs : List (String × JSON), (∀ kv ∈ kvs, findField L [("rates", ())] kv.1 = none) →
      decodeApiResponseMembers L r kvs = .ok r := by
  intro kvs
  induction kvs with
  | nil => intro _; rfl
  | cons kv kvs ih =>
    intro h
    obtain ⟨k, v⟩ := kv
    simp only [decodeApiResponseMembers, h (k, v) (List.mem_cons_self _ _)]
    exact ih (fun kv hkv => h kv (List.mem_cons_of_mem _ hkv))

theorem decodeApiResponseMembers_single_empty (L : Lib) (k : String)
    (front back : List (String × JSON))
    (hfront : ∀ kv ∈ front, findField L [("rates", ())] kv.1 = none)
    (hk : findField L [("rates", ())] k = some ())
    (hback : ∀ kv ∈ back, findField L [("rates", ())] kv.1 = none) :
    ∀ r, decodeApiResponseMembers L r (front ++ (k, .arr []) :: back) = .ok Slice.nil := by
  induction front with
  | nil =>
    intro r
    simp only [List.nil_append, decodeApiResponseMembers, hk, decodeRates]
    exact decodeApiResponseMembers_absent L _ back hback
  | cons kv front ih =>
    intro r
    obtain ⟨k2, v⟩ := kv
    simp only [List.cons_append, decodeApiResponseMembers, hfront (k2, v) (List.mem_cons_self _ _)]
    exact ih (fun kv hkv => hfront kv (List.mem_cons_of_mem _ hkv)) r

/-- C2: for every successful call of `FetchEstimateFromAPI`, the returned
sequence is sorted by ReceiveAmount in descending order: for all indices
`i < j`, `result[i].ReceiveAmount >= result[j].ReceiveAmount` (with `sort.Slice`
meeting its contract). -/
theorem C2_result_sorted_descending (L : Lib) (hsort : L.SortsSlices) (net : Transport)
    (coin1 coin2 : String) (amount : Float64) (best : Bool) (network1 network2 : String)
    (result : List Estimate)
    (h : FetchEstimateFromAPI L net coin1 coin2 amount best network1 network2 = .ok result)
    (i j : Nat) (hi : i < result.length) (hj : j < result.length) (hij : i < j) :
    (result[i].ReceiveAmount).ge (result[j].ReceiveAmount) = true := by
  obtain ⟨data, rates, _, hrates, hres⟩ :=
    FetchEstimate_ok_inv L net coin1 coin2 amount best network1 network2 result h
  have hfin := unmarshalApiResponse_finite L data rates hrates
  obtain ⟨hperm, hsorted⟩ := hsort Estimate ratesLess rates
  have hfin2 : ∀ e ∈ L.sortSlice ratesLess rates, FiniteAmount e :=
    fun e he => hfin e (hperm.mem_iff.1 he)
  have hpw : (L.sortSlice ratesLess rates).Pairwise
      (fun a b => a.ReceiveAmount.ge b.ReceiveAmount = true) :=
    (hsorted (ratesLess_isOrdering rates hfin)).imp_of_mem
      (fun ha hb hab => ge_of_ratesLess_eq_false _ _ (hfin2 _ ha) (hfin2 _ hb) hab)
  have hpw2 : result.Pairwise (fun a b => a.ReceiveAmount.ge b.ReceiveAmount = true) := by
    rw [hres, List.pairwise_map]
    exact hpw
  exact List.pairwise_iff_getElem.1 hpw2 i j hi hj hij

/-- Witness of C2: on a body whose rates come in ascending order (amounts 1, 2),
the call returns them in descending order. -/
theorem C2_witness :
    FetchEstimateFromAPI refLib (respond sampleRates) "btc" "xmr" (.finite 3) true
        "bitcoin" "monero" = .ok sampleQuotes ∧
    Float64.ge (.finite 2) (.finite 1) = true :=
  ⟨by decide!,
   C2_result_sorted_descending refLib refLib_sortsSlices (respond sampleRates) "btc" "xmr"
     (.finite 3) true "bitcoin" "monero" sampleQuotes (by decide!) 0 1 (by decide) (by decide)
     (by decide)⟩

/-- C3: for every successful call
`FetchEstimateFromAPI(coin1, coin2, amount, best, network1, network2)` and every
Estimate `e` of its result, `e.Coin1 = coin1`, `e.Coin2 = coin2`,
`e.Network1 = network1`, `e.Network2 = network2` and `e.SendAmount = amount`,
whatever the body carried for those fields. -/
theorem C3_request_fields_overwritten (L : Lib) (net : Transport)
    (coin1 coin2 : String) (amount : Float64) (best : Bool) (network1 network2 : String)
    (result : List Estimate)
    (h : FetchEstimateFromAPI L net coin1 coin2 amount best network1 network2 = .ok result) :
    ∀ e ∈ result, e.Coin1 = coin1 ∧ e.Coin2 = coin2 ∧ e.Network1 = network1 ∧
      e.Network2 = network2 ∧ e.SendAmount = amount := by
  obtain ⟨data, rates, _, _, hres⟩ :=
    FetchEstimate_ok_inv L net coin1 coin2 amount best network1 network2 result h
  intro e he
  rw [hres] at he
  obtain ⟨e0, _, he0⟩ := List.mem_map.1 he
  subst he0
  exact ⟨rfl, rfl, rfl, rfl, rfl⟩

/-- Witness of C3: the first rate of the body `sampleRates` carries
`"Coin1":"zzz"` and `"SendAmount":99`; the Estimate returned for it has the
arguments of the call instead. -/
theorem C3_witness :
    FetchEstimateFromAPI refLib (respond sampleRates) "btc" "xmr" (.finite 3) true
        "bitcoin" "monero" = .ok sampleQuotes ∧
    ∀ e ∈ sampleQuotes, e.Coin1 = "btc" ∧ e.Coin2 = "xmr" ∧ e.Network1 = "bitcoin" ∧
      e.Network2 = "monero" ∧ e.SendAmount = .finite 3 :=
  ⟨by decide!,
   C3_request_fields_overwritten refLib (respond sampleRates) "btc" "xmr" (.finite 3) true
     "bitcoin" "monero" sampleQuotes (by decide!)⟩

/-- C8: for every successful call of `FetchEstimateFromAPI`, the result is the
full decoded `rates` list reordered: it has the length of the decoded list and
is a permutation of it on the fields the call does not overwrite (ExchangeName,
ReceiveAmount, MinAmount, Address, ImageURL).  In particular an empty decoded
list yields an empty result and no error: so does a body with no member that
names the field `rates`, and a body whose one such member is an empty array
(with `sort.Slice` meeting its contract). -/
theorem C8_result_is_decoded_rates_reordered (L : Lib) (hsort : L.SortsSlices)
    (coin1 coin2 : String) (amount : Float64) (best : Bool) (network1 network2 : String) :
    (∀ (net : Transport) (result : List Estimate),
      FetchEstimateFromAPI L net coin1 coin2 amount best network1 network2 = .ok result →
      ∃ data rates,
        net (estimateURL L coin1 coin2 amount best network1 network2) = .ok data ∧
        unmarshalApiResponse L data = .ok rates ∧
        result.length = rates.length ∧ (result.map kept).Perm (rates.map kept)) ∧
    (∀ (data : Body) (responseMap : GoMap Any),
      unmarshalMap L data = .ok responseMap →
      (mapIndex responseMap "error").asString = none →
      unmarshalApiResponse L data = .ok [] →
      FetchEstimateFromAPI L (respond data) coin1 coin2 amount best network1 network2
        = .ok []) ∧
    (∀ (kvs : List (String × JSON)) (responseMap : GoMap Any),
      unmarshalMap L (.wellFormed (.obj kvs)) = .ok responseMap →
      (∀ m, member kvs "error" ≠ some (.str m)) →
      (∀ kv ∈ kvs, findField L [("rates", ())] kv.1 = none) →
      FetchEstimateFromAPI L (respond (.wellFormed (.obj kvs))) coin1 coin2 amount best
        network1 network2 = .ok []) ∧
    (∀ (front back : List (String × JSON)) (k : String) (responseMap : GoMap Any),
      unmarshalMap L (.wellFormed (.obj (front ++ (k, .arr []) :: back))) = .ok responseMap →
      (∀ m, member (front ++ (k, .arr []) :: back) "error" ≠ some (.str m)) →
      (∀ kv ∈ front, findField L [("rates", ())] kv.1 = none) →
      findField L [("rates", ())] k = some () →
      (∀ kv ∈ back, findField L [("rates", ())] kv.1 = none) →
      FetchEstimateFromAPI L (respond (.wellFormed (.obj (front ++ (k, .arr []) :: back))))
        coin1 coin2 amount best network1 network2 = .ok []) := by
  have hnil : L.sortSlice ratesLess [] = [] := (hsort Estimate ratesLess []).1.eq_nil
  have hempty : ∀ (data : Body) (responseMap : GoMap Any),
      unmarshalMap L data = .ok responseMap →
      (mapIndex responseMap "error").asString = none →
      unmarshalApiResponse L data = .ok [] →
      FetchEstimateFromAPI L (respond data) coin1 coin2 amount best network1 network2
        = .ok [] := by
    intro data responseMap h2 h3 h4
    rw [FetchEstimate_decoded L (respond data) coin1 coin2 amount best network1 network2 data
      responseMap [] rfl h2 h3 h4, hnil]
    rfl
  refine ⟨?_, hempty, ?_, ?_⟩
  · intro net result h
    obtain ⟨data, rates, hnet, hrates, hres⟩ :=
      FetchEstimate_ok_inv L net coin1 coin2 amount best network1 network2 result h
    have hperm := (hsort Estimate ratesLess rates).1
    refine ⟨data, rates, hnet, hrates, ?_, ?_⟩
    · rw [hres, List.length_map]
      exact hperm.length_eq
    · have hk : result.map kept = (L.sortSlice ratesLess rates).map kept := by
        rw [hres, List.map_map]
        rfl
      rw [hk]
      exact hperm.map kept
  · intro kvs responseMap h2 hnoerr habsent
    refine hempty _ responseMap h2
      ((unmarshalMap_asString_none L kvs responseMap "error" h2).2 hnoerr) ?_
    simp only [unmarshalApiResponse]
    rw [decodeApiResponseMembers_absent L Slice.nil kvs habsent]
    rfl
  · intro front back k responseMap h2 hnoerr hfront hk hback
    refine hempty _ responseMap h2
      ((unmarshalMap_asString_none L _ responseMap "error" h2).2 hnoerr) ?_
    simp only [unmarshalApiResponse]
    rw [decodeApiResponseMembers_single_empty L k front back hfront hk hback Slice.nil]
    rfl

/-- Witness of C8: the two rates of the body `sampleRates` come back reordered,
and the bodies `{}` and `{"rates":[]}` yield the empty list. -/
theorem C8_witness :
    (∃ data rates,
      respond sampleRates (estimateURL refLib "btc" "xmr" (.finite 3) true "bitcoin" "monero")
        = .ok data ∧
      unmarshalApiResponse refLib data = .ok rates ∧
      sampleQuotes.length = rates.length ∧ (sampleQuotes.map kept).Perm (rates.map kept)) ∧
    FetchEstimateFromAPI refLib (respond (.wellFormed (.obj []))) "btc" "xmr" (.finite 3) true
      "bitcoin" "monero" = .ok [] ∧
    FetchEstimateFromAPI refLib (respond (.wellFormed (.obj [("rates", .arr [])]))) "btc" "xmr"
      (.finite 3) true "bitcoin" "monero" = .ok [] :=
  ⟨(C8_result_is_decoded_rates_reordered refLib refLib_sortsSlices "btc" "xmr" (.finite 3) true
      "bitcoin" "monero").1 (respond sampleRates) sampleQuotes (by decide!),
   (C8_result_is_decoded_rates_reordered refLib refLib_sortsSlices "btc" "xmr" (.finite 3) true
      "bitcoin" "monero").2.2.1 [] _ rfl
      (fun _ h => Option.noConfusion (h : (none : Option JSON) = some _))
      (fun _ h => nomatch h),
   (C8_result_is_decoded_rates_reordered refLib refLib_sortsSlices "btc" "xmr" (.finite 3) true
      "bitcoin" "monero").2.2.2 [] [] "rates" _ rfl
      (fun _ h => Option.noConfusion (h : (none : Option JSON) = some _))
      (fun _ h => nomatch h) rfl (fun _ h => nomatch h)⟩

end CypherGoat
